import Mathlib

set_option maxRecDepth 200000
set_option maxHeartbeats 4000000

/-!
Verification of the Fuzzy_Temp HVAC fuzzy-inference core.

Shallow embedding of `fuzzy_backend.py` (and the call boundary used by
`app.py`) over exact rational arithmetic.

Embedding conventions:

* Python floats are modelled as `ℚ`.  All quantities that the claims are
  about (membership values, rule strengths, centroids, thresholds) are
  exact rational computations in the source, up to floating-point
  rounding, which none of the claims depends on.
* The scikit-fuzzy library is an external dependency of the repository.
  Its Mamdani inference pipeline is modelled from the specification's
  description (§4.4): fuzzification by linear interpolation of the
  piecewise-linear membership functions (exact here, because every
  membership breakpoint used by the code lies on a sampled universe
  point of the `np.linspace(lo, hi, 401)` / `(lo, hi, 201)` grids);
  `min` for AND, `max` for OR and aggregation; implication by clipping;
  centroid defuzzification of the sampled aggregate curve, undefined
  (no crisp output) when the aggregate membership is identically zero.
* Inputs are clipped to a variable's universe before fuzzification
  (`ControlSystemSimulation(..., clip_to_bounds=True)`, spec §7
  "Out-of-range input").
* A Python exception escaping `single_step` is modelled as `none`.
-/

namespace FuzzyTemp

/-- `np.clip(x, lo, hi)`: `min(hi, max(x, lo))` (upper bound wins when
`lo > hi`, as in numpy). -/
def clipQ (x lo hi : ℚ) : ℚ := min hi (max x lo)

/-- Input clipping done by `ControlSystemSimulation.input.__setitem__`
with `clip_to_bounds=True`: values above the universe maximum are
replaced by the maximum, values below the minimum by the minimum. -/
def clipIn (x lo hi : ℚ) : ℚ := if x > hi then hi else if x < lo then lo else x

/-- `skfuzzy.trimf(universe, [a, b, c])` evaluated at `x` (exact value
of the piecewise-linear triangular membership function; coincides with
`np.interp` of the sampled function because `a`, `b`, `c` are sampled
universe points everywhere this is used). -/
def trimf (a b c x : ℚ) : ℚ :=
  if x = b then 1
  else if a < x ∧ x < b then (x - a) / (b - a)
  else if b < x ∧ x < c then (c - x) / (c - b)
  else 0

/-- `skfuzzy.trapmf(universe, [a, b, c, d])` evaluated at `x`. -/
def trapmf (a b c d x : ℚ) : ℚ :=
  if x < a then 0
  else if x > d then 0
  else if x ≤ b then trimf a b b x
  else if x ≥ c then trimf c c d x
  else 1

/-- Sorting step of `np.percentile` (ascending sort of the data).
`insertionSort` is used for kernel-reducibility; it produces the same
sorted list as any other correct sort. -/
def sortQ (l : List ℚ) : List ℚ := List.insertionSort (· ≤ ·) l

/-- Linear interpolation between order statistics of a sorted list `v`
at fractional position `pos` (`np.percentile`'s default "linear"
convention): with `i = ⌊pos⌋`, the value is
`v[i] + (pos - i) * (v[i+1] - v[i])`, and the last element when
`i + 1` is out of range. -/
def nthInterp (v : List ℚ) (pos : ℚ) : ℚ :=
  if ⌊pos⌋.toNat + 1 < v.length then
    v.getD ⌊pos⌋.toNat 0
      + (pos - (⌊pos⌋.toNat : ℚ))
        * (v.getD (⌊pos⌋.toNat + 1) 0 - v.getD ⌊pos⌋.toNat 0)
  else v.getD (v.length - 1) 0

/-- `np.percentile(a, q)` (linear interpolation between order
statistics): interpolate the sorted data at position
`q / 100 * (len(a) - 1)`. -/
def percentile (a : List ℚ) (q : ℚ) : ℚ :=
  nthInterp (sortQ a) (q * ((a.length : ℚ) - 1) / 100)

/-- `pct_range` (fuzzy_backend.py lines 14-20): the `[lo, hi]`
percentile range of `a`, expanded by `pad` times its span on each
side. -/
def pct_range (a : List ℚ) (lo hi pad : ℚ) : ℚ × ℚ :=
  (percentile a lo - pad * (percentile a hi - percentile a lo),
   percentile a hi + pad * (percentile a hi - percentile a lo))

/-- The four HVAC actions returned by `single_step`. -/
inductive Action where
  | HEAT_ON
  | COOL_ON
  | IDLE
  | OFF
deriving DecidableEq, Repr

/-- `COMFORT_LOW` (fuzzy_backend.py line 10). -/
def COMFORT_LOW : ℚ := 21

/-- `COMFORT_HIGH` (fuzzy_backend.py line 11). -/
def COMFORT_HIGH : ℚ := 24

/-- `OCC_TH` (fuzzy_backend.py line 12). -/
def OCC_TH : ℚ := 1/2

/-- The decision layer of `single_step` (fuzzy_backend.py lines
289-297): thresholding `(occ, t_future)` into an action. -/
def decideAction (occ t_future : ℚ) : Action :=
  if occ > OCC_TH then
    if t_future < COMFORT_LOW then .HEAT_ON
    else if t_future > COMFORT_HIGH then .COOL_ON
    else .IDLE
  else .OFF

/-- A raw data record of `NEW-DATA-1.T15.txt` after column selection
(`load_and_prepare`, fuzzy_backend.py lines 47-55): the four sensor
columns, each possibly missing (`none` models NaN).  The `Datetime`
column is irrelevant to every claim and omitted. -/
structure RawRow where
  indoor : Option ℚ
  outdoor : Option ℚ
  co2 : Option ℚ
  light : Option ℚ
deriving DecidableEq, Repr

/-- A row of the cleaned training table returned by
`load_and_prepare`. -/
structure CleanRow where
  indoor : ℚ
  outdoor : ℚ
  co2 : ℚ
  light : ℚ
  t_future_15 : ℚ
  delta15 : ℚ
deriving DecidableEq, Repr

/-- `df["T_future_15"] = df["Temperature_Comedor_Sensor"].shift(-1)`
(line 58): pair each row with the next row's indoor-temperature field
(`none` for the final row; the next row's field may itself be `none`,
i.e. NaN). -/
def shiftTarget (rows : List RawRow) : List (RawRow × Option ℚ) :=
  rows.zip (rows.tail.map (·.indoor) ++ [none])

/-- One row of `df.dropna()` + `Delta15 = T_future_15 - indoor`
(lines 59-62): keep the row only when every required column and the
shifted target are present. -/
def cleanOf (rt : RawRow × Option ℚ) : Option CleanRow :=
  match rt.1.indoor, rt.1.outdoor, rt.1.co2, rt.1.light, rt.2 with
  | some i, some o, some c, some li, some t => some ⟨i, o, c, li, t, t - i⟩
  | _, _, _, _, _ => none

/-- `df.dropna().reset_index()` plus the `Delta15` column (lines
59-62). -/
def dropnaDelta (l : List (RawRow × Option ℚ)) : List CleanRow :=
  l.filterMap cleanOf

/-- `load_and_prepare` (fuzzy_backend.py lines 23-64), modelled from
the level of parsed rows down (the pandas CSV/`to_datetime` text layer
has no bearing on any claim): derive the shifted 15-minutes-ahead
target, drop incomplete rows (which always includes the final row,
whose target is missing), and add the delta column.  Note that the
function is total: the source performs no validation and defines no
`DataFormatError`. -/
def load_and_prepare (rows : List RawRow) : List CleanRow :=
  dropnaDelta (shiftTarget rows)

/-- The two data-calibrated universe bounds of `build_occupancy_system`
(fuzzy_backend.py lines 73-74).  The training data file is not part of
the source tree, so the bounds are parameters of the embedding. -/
structure OccParams where
  co2_lo : ℚ
  co2_hi : ℚ
  light_lo : ℚ
  light_hi : ℚ
deriving DecidableEq, Repr

/-- `co2_var["low"] = fuzz.trimf(..., [co2_lo, co2_lo, mid])`
(lines 81-84). -/
def co2Low (p : OccParams) (x : ℚ) : ℚ :=
  trimf p.co2_lo p.co2_lo ((p.co2_lo + p.co2_hi) / 2) x

/-- `co2_var["medium"]` (lines 85-88). -/
def co2Medium (p : OccParams) (x : ℚ) : ℚ :=
  trimf p.co2_lo ((p.co2_lo + p.co2_hi) / 2) p.co2_hi x

/-- `co2_var["high"]` (lines 89-92). -/
def co2High (p : OccParams) (x : ℚ) : ℚ :=
  trimf ((p.co2_lo + p.co2_hi) / 2) p.co2_hi p.co2_hi x

/-- `light_var["dark"]` (lines 95-98). -/
def lightDark (p : OccParams) (x : ℚ) : ℚ :=
  trimf p.light_lo p.light_lo ((p.light_lo + p.light_hi) / 2) x

/-- `light_var["dim"]` (lines 99-102). -/
def lightDim (p : OccParams) (x : ℚ) : ℚ :=
  trimf p.light_lo ((p.light_lo + p.light_hi) / 2) p.light_hi x

/-- `light_var["bright"]` (lines 103-106). -/
def lightBright (p : OccParams) (x : ℚ) : ℚ :=
  trimf ((p.light_lo + p.light_hi) / 2) p.light_hi p.light_hi x

/-- `occ_var["low"]` on the fixed `[0, 1]` output universe
(line 109). -/
def occLow (x : ℚ) : ℚ := trimf 0 0 (2/5) x

/-- `occ_var["medium"]` (line 110). -/
def occMedium (x : ℚ) : ℚ := trimf (1/5) (1/2) (4/5) x

/-- `occ_var["high"]` (line 111). -/
def occHigh (x : ℚ) : ℚ := trimf (3/5) 1 1 x

/-- Cut levels of the three occupancy output terms after rule firing. -/
structure OccCuts where
  low : ℚ
  medium : ℚ
  high : ℚ
deriving DecidableEq, Repr

/-- Firing of the 6 occupancy rules (lines 114-121): inputs are clipped
to their universes, AND is `min`; rules sharing a consequent term
combine by `max` (the aggregation operator), giving that term's cut
level. -/
def occCuts (p : OccParams) (co2 light : ℚ) : OccCuts :=
  let c := clipIn co2 p.co2_lo p.co2_hi
  let l := clipIn light p.light_lo p.light_hi
  { low := min (lightDark p l) (co2Low p c)
  , medium := max (min (lightBright p l) (co2Low p c))
      (min (lightDim p l) (co2Medium p c))
  , high := max (min (lightBright p l) (co2Medium p c))
      (max (min (lightBright p l) (co2High p c))
        (min (lightDim p l) (co2High p c))) }

/-- Exact area of one trapezoidal segment of a sampled
piecewise-linear curve (two adjacent `(x, μ(x))` samples). -/
def segArea (s : (ℚ × ℚ) × (ℚ × ℚ)) : ℚ :=
  (s.2.1 - s.1.1) * (s.1.2 + s.2.2) / 2

/-- Exact first moment `∫ x·μ(x) dx` of one trapezoidal segment. -/
def segMoment (s : (ℚ × ℚ) × (ℚ × ℚ)) : ℚ :=
  (s.2.1 - s.1.1)
    * (s.1.1 * (2 * s.1.2 + s.2.2) + s.2.1 * (s.1.2 + 2 * s.2.2)) / 6

/-- Accumulating summation (equal to `List.sum`, see `sumAcc_eq`; the
running total is compared against 0 at each step, which keeps kernel
reduction of concrete evaluations shallow). -/
def sumAcc : List ℚ → ℚ → ℚ
  | [], acc => acc
  | x :: l, acc =>
      let s := acc + x
      if s = 0 then sumAcc l 0 else sumAcc l s

/-- Centroid defuzzification of a sampled membership curve (spec §4.4
step 5; `skfuzzy.defuzz` centroid): area-weighted mean of the
piecewise-linear curve through the samples.  `none` when the aggregate
membership is identically zero — no rule fired, the crisp result is
undefined ("Total area is zero in defuzzification!"). -/
def centroid (pts : List (ℚ × ℚ)) : Option ℚ :=
  if sumAcc (pts.map (·.2)) 0 = 0 then none
  else
    some (sumAcc ((pts.zip pts.tail).map segMoment) 0
      / sumAcc ((pts.zip pts.tail).map segArea) 0)

/-- The occupancy consequent universe `np.linspace(0, 1, 201)`
(line 78). -/
def occGrid : List ℚ := (List.range 201).map fun i => (i : ℚ) / 200

/-- Aggregated occupancy output membership at output-universe point
`x`: max over the implicated (cut) terms. -/
def occAggAt (cu : OccCuts) (x : ℚ) : ℚ :=
  max (min cu.low (occLow x))
    (max (min cu.medium (occMedium x)) (min cu.high (occHigh x)))

/-- Stage 1 of `single_step` (lines 260-264): crisp occupancy score
for one query, `none` when no occupancy rule fires (in that case the
real pipeline has no crisp `"occ"` output and an exception is
raised — there is no fallback for this stage). -/
def occScore (p : OccParams) (co2 light : ℚ) : Option ℚ :=
  centroid (occGrid.map fun x => (x, occAggAt (occCuts p co2 light) x))

/-- `np.linspace(lo, hi, 5)` point `k` (`a, b, c, d, e` in
`five_terms`). -/
def lin5 (lo hi : ℚ) (k : ℕ) : ℚ := lo + (hi - lo) * k / 4

/-- `np.linspace(lo, hi, 3)` point `k` (`a, b, c` in
`three_terms`). -/
def lin3 (lo hi : ℚ) (k : ℕ) : ℚ := lo + (hi - lo) * k / 2

/-- `five_terms` term 0 (`trapmf [lo, lo, a, b]`, line 181; note
`a = lo`, so the plateau is the single point `lo`). -/
def fiveTerm0 (lo hi x : ℚ) : ℚ :=
  trapmf lo lo (lin5 lo hi 0) (lin5 lo hi 1) x

/-- `five_terms` term 1 (`trimf [a, (a+b)/2, c]`, line 182). -/
def fiveTerm1 (lo hi x : ℚ) : ℚ :=
  trimf (lin5 lo hi 0) ((lin5 lo hi 0 + lin5 lo hi 1) / 2) (lin5 lo hi 2) x

/-- `five_terms` term 2 (`trimf [b, (b+c)/2, d]`, line 183). -/
def fiveTerm2 (lo hi x : ℚ) : ℚ :=
  trimf (lin5 lo hi 1) ((lin5 lo hi 1 + lin5 lo hi 2) / 2) (lin5 lo hi 3) x

/-- `five_terms` term 3 (`trimf [c, (c+d)/2, e]`, line 184). -/
def fiveTerm3 (lo hi x : ℚ) : ℚ :=
  trimf (lin5 lo hi 2) ((lin5 lo hi 2 + lin5 lo hi 3) / 2) (lin5 lo hi 4) x

/-- `five_terms` term 4 (`trapmf [d, e, hi, hi]`, line 185; `e = hi`,
so the plateau is the single point `hi`). -/
def fiveTerm4 (lo hi x : ℚ) : ℚ :=
  trapmf (lin5 lo hi 3) (lin5 lo hi 4) hi hi x

/-- `three_terms` term 0 (`trapmf [lo, lo, a, b]`, line 189;
`a = lo`). -/
def threeTerm0 (lo hi x : ℚ) : ℚ :=
  trapmf lo lo (lin3 lo hi 0) (lin3 lo hi 1) x

/-- `three_terms` term 1 (`trimf [a, (a+b)/2, c]`, line 190). -/
def threeTerm1 (lo hi x : ℚ) : ℚ :=
  trimf (lin3 lo hi 0) ((lin3 lo hi 0 + lin3 lo hi 1) / 2) (lin3 lo hi 2) x

/-- `three_terms` term 2 (`trapmf [b, c, hi, hi]`, line 191;
`c = hi`). -/
def threeTerm2 (lo hi x : ℚ) : ℚ :=
  trapmf (lin3 lo hi 1) (lin3 lo hi 2) hi hi x

/-- The data-calibrated universe bounds of `build_delta_system`
(lines 168-171); parameters of the embedding since the training data
file is not in the source tree.  `five_terms_delta` (lines 193-199)
builds the same shapes as `five_terms` over `[d_lo, d_hi]`. -/
structure DeltaParams where
  indo_lo : ℚ
  indo_hi : ℚ
  out_lo : ℚ
  out_hi : ℚ
  occ_lo : ℚ
  occ_hi : ℚ
  d_lo : ℚ
  d_hi : ℚ
deriving DecidableEq, Repr

/-- Cut levels of the five delta output terms after rule firing. -/
structure DeltaCuts where
  strong_down : ℚ
  slight_down : ℚ
  stable : ℚ
  slight_up : ℚ
  strong_up : ℚ
deriving DecidableEq, Repr

/-- Firing of the 18 delta rules (lines 212-231): inputs clipped to
their universes; AND is `min`, the inner OR (`occ_low | occ_med` etc.)
is `max`; rules sharing a consequent term combine by `max`. -/
def deltaCuts (p : DeltaParams) (indoor outdoor occ : ℚ) : DeltaCuts :=
  let xi := clipIn indoor p.indo_lo p.indo_hi
  let xo := clipIn outdoor p.out_lo p.out_hi
  let xc := clipIn occ p.occ_lo p.occ_hi
  let ivc := fiveTerm0 p.indo_lo p.indo_hi xi
  let icold := fiveTerm1 p.indo_lo p.indo_hi xi
  let inormal := fiveTerm2 p.indo_lo p.indo_hi xi
  let iwarm := fiveTerm3 p.indo_lo p.indo_hi xi
  let ihot := fiveTerm4 p.indo_lo p.indo_hi xi
  let ovc := fiveTerm0 p.out_lo p.out_hi xo
  let ocold := fiveTerm1 p.out_lo p.out_hi xo
  let onormal := fiveTerm2 p.out_lo p.out_hi xo
  let owarm := fiveTerm3 p.out_lo p.out_hi xo
  let ohot := fiveTerm4 p.out_lo p.out_hi xo
  let clow := threeTerm0 p.occ_lo p.occ_hi xc
  let cmed := threeTerm1 p.occ_lo p.occ_hi xc
  let chigh := threeTerm2 p.occ_lo p.occ_hi xc
  { strong_up := max (min (min ivc ohot) (max cmed chigh))
      (min (min icold ohot) (max cmed chigh))
  , slight_up := max (min (min ivc owarm) chigh)
      (max (min (min icold owarm) chigh)
        (max (min (min inormal owarm) clow)
          (max (min (min inormal owarm) chigh)
            (max (min (min inormal ohot) cmed)
              (min (min inormal onormal) chigh)))))
  , stable := max (min (min inormal onormal) clow)
      (max (min (min iwarm owarm) (max clow cmed))
        (max (min (min icold ocold) (max clow cmed))
          (max (min (min iwarm onormal) chigh)
            (max (min (min ivc ovc) (max clow cmed))
              (min (min ihot ohot) (max clow cmed))))))
  , slight_down := max (min (min iwarm onormal) clow)
      (max (min (min ihot onormal) clow)
        (min (min ihot ocold) chigh))
  , strong_down := min (min ihot ocold) clow }

/-- The delta consequent universe `np.linspace(d_lo, d_hi, 401)`
(line 176). -/
def deltaGrid (lo hi : ℚ) : List ℚ :=
  (List.range 401).map fun i => lo + (hi - lo) * i / 400

/-- Aggregated delta output membership at output-universe point
`x`. -/
def deltaAggAt (p : DeltaParams) (cu : DeltaCuts) (x : ℚ) : ℚ :=
  max (min cu.strong_down (fiveTerm0 p.d_lo p.d_hi x))
    (max (min cu.slight_down (fiveTerm1 p.d_lo p.d_hi x))
      (max (min cu.stable (fiveTerm2 p.d_lo p.d_hi x))
        (max (min cu.slight_up (fiveTerm3 p.d_lo p.d_hi x))
          (min cu.strong_up (fiveTerm4 p.d_lo p.d_hi x)))))

/-- Stage 2 of `single_step` (lines 267-272): raw crisp delta for one
query, `none` when no delta rule fires (`"delta"` missing from
`sim.output`). -/
def deltaRaw (p : DeltaParams) (indoor outdoor occ : ℚ) : Option ℚ :=
  centroid ((deltaGrid p.d_lo p.d_hi).map
    fun x => (x, deltaAggAt p (deltaCuts p indoor outdoor occ) x))

/-- `single_step` (fuzzy_backend.py lines 245-299) together with its
observable log behaviour: the first component is the returned
quadruple `(occ, delta_t, t_future, action)` — `none` models a Python
exception escaping to the caller, which happens exactly when the
occupancy stage produces no crisp output, since that stage has no
no-rule-fired guard (line 264 reads `occ_sim.output["occ"]`
unconditionally).  The second component records whether the
`[WARN] No 'delta' output` fallback branch (lines 274-283) ran:
that branch substitutes `raw_delta = 0.0`.  Either way the raw delta
is clipped to `[d_lo, d_hi]` (line 285) and
`t_future = indoor_t + delta_t` (line 286). -/
def single_stepW (po : OccParams) (pd : DeltaParams)
    (indoor_t outdoor_t co2 lighting : ℚ) :
    Option (ℚ × ℚ × ℚ × Action) × Bool :=
  match occScore po co2 lighting with
  | none => (none, false)
  | some occ =>
      let rw := match deltaRaw pd indoor_t outdoor_t occ with
        | some r => (r, false)
        | none => ((0 : ℚ), true)
      let delta_t := clipQ rw.1 pd.d_lo pd.d_hi
      let t_future := indoor_t + delta_t
      (some (occ, delta_t, t_future, decideAction occ t_future), rw.2)

/-- The value returned by `single_step` (`none` = exception escapes to
the caller). -/
def single_step (po : OccParams) (pd : DeltaParams)
    (indoor_t outdoor_t co2 lighting : ℚ) :
    Option (ℚ × ℚ × ℚ × Action) :=
  (single_stepW po pd indoor_t outdoor_t co2 lighting).1

/-- Decidable trigger of the delta-stage fallback: the occupancy stage
produced a crisp score but no delta rule fires on it. -/
def deltaNoFire (po : OccParams) (pd : DeltaParams)
    (indoor_t outdoor_t co2 lighting : ℚ) : Bool :=
  match occScore po co2 lighting with
  | none => false
  | some occ => (deltaRaw pd indoor_t outdoor_t occ).isNone

/-- Universe bounds computed by `build_occupancy_system`
(lines 70-74): `pct_range` over the CO2 and lighting columns of the
*entire* table passed to it — in the pipeline (line 240) that is the
whole cleaned dataset `DF`; no train/evaluation split happens before
this call. -/
def occUniverses (df : List CleanRow) : (ℚ × ℚ) × (ℚ × ℚ) :=
  (pct_range (df.map (·.co2)) 1 99 (1/20),
   pct_range (df.map (·.light)) 1 99 (1/20))

/-- `train_test_split(X, y, test_size=0.2, shuffle=False)`
(lines 158-160): the training part is the first
`n - ceil(0.2 * n)` rows, in original order. -/
def trainPart (df : List CleanRow) : List CleanRow :=
  df.take (df.length - (df.length + 4) / 5)

/-- `compute_occ_fuzzy` (lines 127-142): run the occupancy system over
every row of the table (all rows — train and evaluation alike). -/
def computeOccColumn (p : OccParams) (df : List CleanRow) :
    List (Option ℚ) :=
  df.map fun r => occScore p r.co2 r.light

/-- Universe bounds computed by `build_delta_system` (lines 149-171)
from the table and its occupancy column `occv`: the indoor, outdoor,
occupancy and delta universes all come from `pct_range` over the
training prefix only (`X_train`, `y_train`,
`Delta15_train = y_train - indo_train`). -/
def deltaUniverses (df : List CleanRow) (occv : List ℚ) :
    (ℚ × ℚ) × (ℚ × ℚ) × (ℚ × ℚ) × (ℚ × ℚ) :=
  let tr := trainPart df
  let occtr := occv.take (df.length - (df.length + 4) / 5)
  (pct_range (tr.map (·.indoor)) 1 99 (1/20),
   pct_range (tr.map (·.outdoor)) 1 99 (1/20),
   pct_range occtr 1 99 (1/20),
   pct_range (tr.map fun r => r.t_future_15 - r.indoor) 5 95 (3/100))

/-- Representative calibrated occupancy universes (CO2 `[2, 10]`,
lighting `[0, 1]`, in arbitrary rescaled sensor units), standing in
for the `pct_range` output on the training file, which is not part of
the source tree.  (Small magnitudes keep kernel evaluation shallow;
the fuzzy systems are invariant under affine rescaling of a
universe.) -/
def occP : OccParams := ⟨2, 10, 0, 1⟩

/-- Representative calibrated delta-model universes (indoor
`[10, 30]` °C, outdoor `[0, 40]` °C, occupancy `[0, 1]`, delta
`[-1, 1]` °C). -/
def deltaP : DeltaParams := ⟨10, 30, 0, 40, 0, 1, -1, 1⟩

/-- A five-row cleaned table (so the `shuffle=False` 80/20 split
trains on the first four rows). -/
def dfA : List CleanRow :=
  [⟨20, 10, 4, 1, 21, 1⟩, ⟨21, 11, 5, 2, 22, 1⟩,
   ⟨22, 12, 6, 3, 23, 1⟩, ⟨23, 13, 7, 4, 24, 1⟩,
   ⟨24, 14, 8, 5, 25, 1⟩]

/-- The same table with a single CO2 value changed in the final row —
an evaluation-partition row under the 80/20 time-ordered split. -/
def dfB : List CleanRow :=
  [⟨20, 10, 4, 1, 21, 1⟩, ⟨21, 11, 5, 2, 22, 1⟩,
   ⟨22, 12, 6, 3, 23, 1⟩, ⟨23, 13, 7, 4, 24, 1⟩,
   ⟨24, 14, 18, 5, 25, 1⟩]

/-- A shared occupancy column for the five-row tables. -/
def occC : List ℚ := [1/2, 1/2, 1/2, 1/2, 1/2]

/-- The mutable global state of the process: the per-simulation memo
tables of every `ControlSystemSimulation` allocated so far (skfuzzy
simulations cache computed results, and store inputs and memberships
keyed by the simulation object), indexed by allocation number.  A
simulation that has never been allocated has an empty memo. -/
structure SimCaches where
  occ : ℕ → List ((ℚ × ℚ) × Option ℚ)
  delta : ℕ → List ((ℚ × ℚ × ℚ) × Option ℚ)
  nextId : ℕ

/-- `compute()` on occupancy simulation `id`: consult that
simulation's own memo, else run the inference on the (immutable)
occupancy system and record the result in the simulation's memo. -/
def computeOcc (po : OccParams) (s : SimCaches) (id : ℕ)
    (co2 light : ℚ) : SimCaches × Option ℚ :=
  match (s.occ id).find? (fun e => e.1 == (co2, light)) with
  | some e => (s, e.2)
  | none =>
      let v := occScore po co2 light
      ({ s with occ := fun j =>
          if j = id then ((co2, light), v) :: s.occ id else s.occ j }, v)

/-- `compute()` on delta simulation `id`. -/
def computeDelta (pd : DeltaParams) (s : SimCaches) (id : ℕ)
    (indoor outdoor occ : ℚ) : SimCaches × Option ℚ :=
  match (s.delta id).find? (fun e => e.1 == (indoor, outdoor, occ)) with
  | some e => (s, e.2)
  | none =>
      let v := deltaRaw pd indoor outdoor occ
      ({ s with delta := fun j =>
          if j = id then ((indoor, outdoor, occ), v) :: s.delta id
          else s.delta j }, v)

/-- Stateful reading of `single_step` (lines 245-299): lines 260 and
268 allocate a *fresh* `ControlSystemSimulation` for each of the two
module-level systems on every call, and `compute()` runs on those
fresh simulations. -/
def single_stepSt (po : OccParams) (pd : DeltaParams) (s : SimCaches)
    (indoor_t outdoor_t co2 lighting : ℚ) :
    SimCaches × Option (ℚ × ℚ × ℚ × Action) :=
  let occId := s.nextId
  let s1 : SimCaches := { s with nextId := s.nextId + 1 }
  let so := computeOcc po s1 occId co2 lighting
  match so.2 with
  | none => (so.1, none)
  | some occ =>
      let deltaId := so.1.nextId
      let s3 : SimCaches := { so.1 with nextId := so.1.nextId + 1 }
      let sd := computeDelta pd s3 deltaId indoor_t outdoor_t occ
      let rw := match sd.2 with
        | some r => (r, false)
        | none => ((0 : ℚ), true)
      let delta_t := clipQ rw.1 pd.d_lo pd.d_hi
      let t_future := indoor_t + delta_t
      (sd.1, some (occ, delta_t, t_future, decideAction occ t_future))

/-- A state is fresh-sound when every not-yet-allocated simulation
index has an empty memo (true of the real process: simulation objects
are only created through allocation). -/
def FreshOK (s : SimCaches) : Prop :=
  ∀ j, s.nextId ≤ j → s.occ j = [] ∧ s.delta j = []

/-- The process state at startup: no simulation allocated yet. -/
def simInit : SimCaches := ⟨fun _ => [], fun _ => [], 0⟩

end FuzzyTemp

namespace FuzzyTemp

/-- C1: The decision layer is a total deterministic function of
`(occupancy, t_future)`: for every pair exactly one of the four actions
is produced — `OFF` iff `occupancy ≤ 0.5`, `HEAT_ON` iff
`occupancy > 0.5 ∧ t_future < 21`, `COOL_ON` iff
`occupancy > 0.5 ∧ t_future > 24`, and `IDLE` iff
`occupancy > 0.5 ∧ 21 ≤ t_future ≤ 24`; the four branches partition the
input space with no gaps or overlaps at the boundaries. -/
theorem decideAction_total_partition (occ t_future : ℚ) :
    (decideAction occ t_future = .OFF ↔ occ ≤ 1/2) ∧
    (decideAction occ t_future = .HEAT_ON ↔ 1/2 < occ ∧ t_future < 21) ∧
    (decideAction occ t_future = .COOL_ON ↔ 1/2 < occ ∧ 24 < t_future) ∧
    (decideAction occ t_future = .IDLE ↔
      1/2 < occ ∧ 21 ≤ t_future ∧ t_future ≤ 24) := by
  unfold decideAction OCC_TH COMFORT_LOW COMFORT_HIGH
  split_ifs with h1 h2 h3
  · exact ⟨iff_of_false (by decide) (fun h => by linarith),
      iff_of_true rfl ⟨h1, h2⟩,
      iff_of_false (by decide) (fun h => by obtain ⟨ha, hb⟩ := h; linarith),
      iff_of_false (by decide) (fun h => by obtain ⟨ha, hb, hc⟩ := h; linarith)⟩
  · exact ⟨iff_of_false (by decide) (fun h => by linarith),
      iff_of_false (by decide) (fun h => by obtain ⟨ha, hb⟩ := h; linarith),
      iff_of_true rfl ⟨h1, h3⟩,
      iff_of_false (by decide) (fun h => by obtain ⟨ha, hb, hc⟩ := h; linarith)⟩
  · exact ⟨iff_of_false (by decide) (fun h => by linarith),
      iff_of_false (by decide) (fun h => by obtain ⟨ha, hb⟩ := h; linarith),
      iff_of_false (by decide) (fun h => by obtain ⟨ha, hb⟩ := h; linarith),
      iff_of_true rfl ⟨h1, by linarith, by linarith⟩⟩
  · exact ⟨iff_of_true rfl (by linarith),
      iff_of_false (by decide) (fun h => by obtain ⟨ha, hb⟩ := h; linarith),
      iff_of_false (by decide) (fun h => by obtain ⟨ha, hb⟩ := h; linarith),
      iff_of_false (by decide) (fun h => by obtain ⟨ha, hb, hc⟩ := h; linarith)⟩

theorem sortQ_sorted (l : List ℚ) : List.Sorted (· ≤ ·) (sortQ l) :=
  List.sorted_insertionSort (· ≤ ·) l

theorem sortQ_length (l : List ℚ) : (sortQ l).length = l.length :=
  (List.perm_insertionSort (· ≤ ·) l).length_eq

theorem sorted_getD_mono {v : List ℚ} (hs : List.Sorted (· ≤ ·) v) {i j : ℕ}
    (hij : i ≤ j) (hj : j < v.length) : v.getD i 0 ≤ v.getD j 0 := by
  have hi : i < v.length := lt_of_le_of_lt hij hj
  rw [List.getD_eq_getElem v 0 hi, List.getD_eq_getElem v 0 hj]
  have := hs.rel_get_of_le (a := ⟨i, hi⟩) (b := ⟨j, hj⟩) (by exact hij)
  simpa using this

theorem nthInterp_mono {v : List ℚ} (hs : List.Sorted (· ≤ ·) v)
    {p p' : ℚ} (hp : 0 ≤ p) (hpp : p ≤ p') :
    nthInterp v p ≤ nthInterp v p' := by
  have hp' : 0 ≤ p' := le_trans hp hpp
  have hfl : (0 : ℤ) ≤ ⌊p⌋ := Int.floor_nonneg.mpr hp
  have hfl' : (0 : ℤ) ≤ ⌊p'⌋ := Int.floor_nonneg.mpr hp'
  have hiq : ((⌊p⌋.toNat : ℚ)) ≤ p := by
    have h1 : ((⌊p⌋.toNat : ℤ) : ℚ) ≤ p := by
      rw [Int.toNat_of_nonneg hfl]; exact Int.floor_le p
    exact_mod_cast h1
  have hiq1 : p < (⌊p⌋.toNat : ℚ) + 1 := by
    have h1 : p < ((⌊p⌋.toNat : ℤ) : ℚ) + 1 := by
      rw [Int.toNat_of_nonneg hfl]; exact Int.lt_floor_add_one p
    exact_mod_cast h1
  have hiq' : ((⌊p'⌋.toNat : ℚ)) ≤ p' := by
    have h1 : ((⌊p'⌋.toNat : ℤ) : ℚ) ≤ p' := by
      rw [Int.toNat_of_nonneg hfl']; exact Int.floor_le p'
    exact_mod_cast h1
  have hii : ⌊p⌋.toNat ≤ ⌊p'⌋.toNat :=
    Int.toNat_le_toNat (Int.floor_le_floor hpp)
  unfold nthInterp
  by_cases hb : ⌊p⌋.toNat + 1 < v.length
  · by_cases hb' : ⌊p'⌋.toNat + 1 < v.length
    · rw [if_pos hb, if_pos hb']
      rcases eq_or_lt_of_le hii with he | hlt
      · rw [← he]
        have hab : v.getD ⌊p⌋.toNat 0 ≤ v.getD (⌊p⌋.toNat + 1) 0 :=
          sorted_getD_mono hs (Nat.le_succ _) hb
        have := mul_le_mul_of_nonneg_right (sub_le_sub_right hpp ((⌊p⌋.toNat : ℚ)))
          (sub_nonneg.mpr hab)
        linarith
      · have h1 : v.getD ⌊p⌋.toNat 0 + (p - (⌊p⌋.toNat : ℚ))
            * (v.getD (⌊p⌋.toNat + 1) 0 - v.getD ⌊p⌋.toNat 0)
            ≤ v.getD (⌊p⌋.toNat + 1) 0 := by
          have hab : v.getD ⌊p⌋.toNat 0 ≤ v.getD (⌊p⌋.toNat + 1) 0 :=
            sorted_getD_mono hs (Nat.le_succ _) hb
          nlinarith [mul_nonneg (sub_nonneg.mpr hiq) (sub_nonneg.mpr hab)]
        have h2 : v.getD (⌊p⌋.toNat + 1) 0 ≤ v.getD ⌊p'⌋.toNat 0 :=
          sorted_getD_mono hs hlt (lt_of_le_of_lt (Nat.le_succ _) hb')
        have h3 : v.getD ⌊p'⌋.toNat 0 ≤ v.getD ⌊p'⌋.toNat 0 + (p' - (⌊p'⌋.toNat : ℚ))
            * (v.getD (⌊p'⌋.toNat + 1) 0 - v.getD ⌊p'⌋.toNat 0) := by
          have hab' : v.getD ⌊p'⌋.toNat 0 ≤ v.getD (⌊p'⌋.toNat + 1) 0 :=
            sorted_getD_mono hs (Nat.le_succ _) hb'
          nlinarith [mul_nonneg (sub_nonneg.mpr hiq') (sub_nonneg.mpr hab')]
        linarith
    · rw [if_pos hb, if_neg hb']
      have h1 : v.getD ⌊p⌋.toNat 0 + (p - (⌊p⌋.toNat : ℚ))
          * (v.getD (⌊p⌋.toNat + 1) 0 - v.getD ⌊p⌋.toNat 0)
          ≤ v.getD (⌊p⌋.toNat + 1) 0 := by
        have hab : v.getD ⌊p⌋.toNat 0 ≤ v.getD (⌊p⌋.toNat + 1) 0 :=
          sorted_getD_mono hs (Nat.le_succ _) hb
        nlinarith [mul_nonneg (sub_nonneg.mpr hiq) (sub_nonneg.mpr hab)]
      have h2 : v.getD (⌊p⌋.toNat + 1) 0 ≤ v.getD (v.length - 1) 0 :=
        sorted_getD_mono hs (by omega) (by omega)
      linarith
  · have hb' : ¬ ⌊p'⌋.toNat + 1 < v.length := by omega
    rw [if_neg hb, if_neg hb']

theorem percentile_mono {a : List ℚ} {q q' : ℚ} (ha : a ≠ [])
    (hq : 0 ≤ q) (hqq : q ≤ q') : percentile a q ≤ percentile a q' := by
  have hn : (1 : ℚ) ≤ (a.length : ℚ) := by
    have : 1 ≤ a.length := List.length_pos.mpr ha
    exact_mod_cast this
  have hnn : (0 : ℚ) ≤ ((a.length : ℚ) - 1) / 100 :=
    div_nonneg (by linarith) (by norm_num)
  unfold percentile
  have e : ∀ r : ℚ, r * ((a.length : ℚ) - 1) / 100
      = r * (((a.length : ℚ) - 1) / 100) := by intro r; ring
  rw [e q, e q']
  exact nthInterp_mono (sortQ_sorted a)
    (mul_nonneg hq hnn) (mul_le_mul_of_nonneg_right hqq hnn)

/-- C7: For every non-empty value list and valid percentile pair,
`pct_range` returns `(lo, hi)` with `lo ≤ hi` — the `lo_pct`/`hi_pct`
percentiles (linear interpolation between order statistics, as embedded
in `percentile`) expanded symmetrically by `pad × (hi − lo)` on each
side — and widening `(lo_pct, hi_pct)` toward `(0, 100)` never shrinks
the returned interval. -/
theorem pct_range_spec (a : List ℚ) (lp hp lp' hp' pad : ℚ)
    (ha : a ≠ []) (h0 : 0 ≤ lp') (h1 : lp' ≤ lp) (h2 : lp ≤ hp)
    (h3 : hp ≤ hp') (h4 : hp' ≤ 100) (hpad : 0 ≤ pad) :
    (pct_range a lp hp pad).1 ≤ (pct_range a lp hp pad).2 ∧
    pct_range a lp hp pad
      = (percentile a lp - pad * (percentile a hp - percentile a lp),
         percentile a hp + pad * (percentile a hp - percentile a lp)) ∧
    (pct_range a lp' hp' pad).1 ≤ (pct_range a lp hp pad).1 ∧
    (pct_range a lp hp pad).2 ≤ (pct_range a lp' hp' pad).2 := by
  have m1 : percentile a lp' ≤ percentile a lp := percentile_mono ha h0 h1
  have m2 : percentile a lp ≤ percentile a hp :=
    percentile_mono ha (le_trans h0 h1) h2
  have m3 : percentile a hp ≤ percentile a hp' :=
    percentile_mono ha (le_trans (le_trans h0 h1) h2) h3
  have s1 : pad * (percentile a hp - percentile a lp)
      ≤ pad * (percentile a hp' - percentile a lp') :=
    mul_le_mul_of_nonneg_left (by linarith) hpad
  have s0 : 0 ≤ pad * (percentile a hp - percentile a lp) :=
    mul_nonneg hpad (by linarith)
  refine ⟨?_, rfl, ?_, ?_⟩ <;> simp only [pct_range] <;> linarith

/-- Witness for C7 at the concrete dataset `[3, 1, 2]` with
`(lo_pct, hi_pct) = (10, 90)` widening to `(0, 100)` and `pad = 0.05`:
the hypotheses hold and the padded interval evaluates to
`(1.12, 2.88)`. -/
theorem pct_range_spec_witness :
    (([3, 1, 2] : List ℚ) ≠ [] ∧ (0 : ℚ) ≤ 0 ∧ (0 : ℚ) ≤ 10 ∧
      (10 : ℚ) ≤ 90 ∧ (90 : ℚ) ≤ 100 ∧ (100 : ℚ) ≤ 100 ∧
      (0 : ℚ) ≤ 1/20) ∧
    pct_range [3, 1, 2] 10 90 (1/20) = (28/25, 72/25) ∧
    ((pct_range [3, 1, 2] 10 90 (1/20)).1
        ≤ (pct_range [3, 1, 2] 10 90 (1/20)).2 ∧
      pct_range ([3, 1, 2] : List ℚ) 10 90 (1/20)
        = (percentile [3, 1, 2] 10
             - (1/20) * (percentile [3, 1, 2] 90 - percentile [3, 1, 2] 10),
           percentile [3, 1, 2] 90
             + (1/20) * (percentile [3, 1, 2] 90 - percentile [3, 1, 2] 10)) ∧
      (pct_range [3, 1, 2] 0 100 (1/20)).1
        ≤ (pct_range [3, 1, 2] 10 90 (1/20)).1 ∧
      (pct_range [3, 1, 2] 10 90 (1/20)).2
        ≤ (pct_range [3, 1, 2] 0 100 (1/20)).2) :=
  ⟨⟨by decide, by norm_num, by norm_num, by norm_num, by norm_num,
      by norm_num, by norm_num⟩,
    by with_unfolding_all decide,
    pct_range_spec [3, 1, 2] 10 90 0 100 (1/20) (by decide) (by norm_num)
      (by norm_num) (by norm_num) (by norm_num) (by norm_num) (by norm_num)⟩

theorem shiftTarget_cons_cons (r r' : RawRow) (rs : List RawRow) :
    shiftTarget (r :: r' :: rs) = (r, r'.indoor) :: shiftTarget (r' :: rs) := by
  simp [shiftTarget]

theorem load_and_prepare_cons_cons (r r' : RawRow) (rs : List RawRow) :
    load_and_prepare (r :: r' :: rs)
      = dropnaDelta [(r, r'.indoor)] ++ load_and_prepare (r' :: rs) := by
  unfold load_and_prepare dropnaDelta
  rw [shiftTarget_cons_cons, ← List.singleton_append, List.filterMap_append]

theorem cleanOf_delta {rt : RawRow × Option ℚ} {r : CleanRow}
    (h : cleanOf rt = some r) : r.delta15 = r.t_future_15 - r.indoor := by
  obtain ⟨⟨i, o, c, li⟩, t⟩ := rt
  cases i <;> cases o <;> cases c <;> cases li <;> cases t <;>
    simp [cleanOf] at h <;> simp [← h]

/-- C9 (amended): `load_and_prepare` performs no validation at all: it
is a total function that always returns the cleaned table — the final
row (and every row with a missing required value) dropped, the delta
column equal to `t_future_15 - indoor` on every surviving row, and the
result at least one row shorter than the input — with no minimum-row
check and no `DataFormatError` (the code defines no such exception). -/
theorem load_and_prepare_total (rows : List RawRow) :
    ((load_and_prepare rows).all
        fun r => r.delta15 == r.t_future_15 - r.indoor) = true ∧
    (load_and_prepare rows).length ≤ rows.length - 1 := by
  constructor
  · rw [List.all_eq_true]
    intro r hr
    rcases List.mem_filterMap.mp hr with ⟨rt, _, hrt⟩
    exact beq_iff_eq.mpr (cleanOf_delta hrt)
  · induction rows with
    | nil => simp [load_and_prepare, shiftTarget, dropnaDelta]
    | cons r rs ih =>
      cases rs with
      | nil => simp [load_and_prepare, shiftTarget, dropnaDelta, cleanOf]
      | cons r' rs' =>
        rw [load_and_prepare_cons_cons, List.length_append]
        have h1 : (dropnaDelta [(r, r'.indoor)]).length ≤ 1 :=
          List.length_filterMap_le cleanOf [(r, r'.indoor)]
        simp only [List.length_cons] at ih ⊢
        omega

/-- C9 counterexample: on an input with two data rows, exactly one
usable row remains after dropping the final row (fewer than the two the
claim requires), yet `load_and_prepare` returns that one-row table
normally instead of failing with a `DataFormatError`. -/
theorem load_and_prepare_min_rows_counterexample :
    load_and_prepare
        [⟨some 20, some 10, some 4, some 5⟩,
         ⟨some 21, some 11, some 5, some 6⟩]
      = [⟨20, 10, 4, 5, 21, 1⟩] ∧
    ([(⟨20, 10, 4, 5, 21, 1⟩ : CleanRow)]).length < 2 := by
  exact ⟨by with_unfolding_all decide, by decide⟩

theorem clipQ_le {x lo hi : ℚ} (h : lo ≤ hi) :
    lo ≤ clipQ x lo hi ∧ clipQ x lo hi ≤ hi :=
  ⟨le_min h (le_max_right x lo), min_le_left hi (max x lo)⟩

theorem clipQ_zero {lo hi : ℚ} (h1 : lo ≤ 0) (h2 : 0 ≤ hi) :
    clipQ 0 lo hi = 0 := by
  unfold clipQ; rw [max_eq_left h1, min_eq_right h2]

/-- C5: for every query, the `t_future` component returned by
`single_step` equals `indoor_t + delta_t` exactly, where `delta_t` is
the delta component of the same call (exact over ℚ; the source computes
`t_future = indoor_t + delta_t` in line 286, so the float identity
holds to the last bit, well within the 1e-9 tolerance). -/
theorem single_step_round_trip (po : OccParams) (pd : DeltaParams)
    (indoor_t outdoor_t co2 lighting : ℚ) :
    match single_step po pd indoor_t outdoor_t co2 lighting with
    | none => True
    | some r => r.2.2.1 = indoor_t + r.2.1 := by
  unfold single_step single_stepW
  cases hocc : occScore po co2 lighting with
  | none => simp
  | some occ => cases hdr : deltaRaw pd indoor_t outdoor_t occ <;> simp

/-- C3 fails on the code: the well-formed finite numeric quadruple
`(indoor, outdoor, co2, lighting) = (21, 12, 10000, 0)` — a dark room
(lighting at/below the calibrated minimum) with high CO2 — fires none
of the six occupancy rules (no rule covers dark∧medium, dark∧high or
dim∧low), the occupancy stage has no crisp output, and `single_step`
propagates the resulting exception instead of returning a crisp
result: the modelled call yields `none`.  The failure is a whole input
region, not an isolated point: `(25, 30, 6, 0)` — dark with CO2 at the
universe midpoint — fails the same way. -/
theorem single_step_raises_on_dark_high_co2 :
    occScore occP 10000 0 = none ∧
    single_step occP deltaP 21 12 10000 0 = none ∧
    single_step occP deltaP 25 30 6 0 = none := by
  with_unfolding_all decide

theorem trimf_nonneg (a b c x : ℚ) : 0 ≤ trimf a b c x := by
  unfold trimf
  split_ifs with h1 h2 h3
  · norm_num
  · exact le_of_lt (div_pos (by linarith [h2.1]) (by linarith [h2.1, h2.2]))
  · exact le_of_lt (div_pos (by linarith [h3.2]) (by linarith [h3.1, h3.2]))
  · norm_num

theorem trapmf_nonneg (a b c d x : ℚ) : 0 ≤ trapmf a b c d x := by
  unfold trapmf
  split_ifs with h1 h2 h3 h4
  · norm_num
  · norm_num
  · exact trimf_nonneg a b b x
  · exact trimf_nonneg c c d x
  · norm_num

theorem deltaAggAt_cuts_zero (p : DeltaParams) (x : ℚ) :
    deltaAggAt p ⟨0, 0, 0, 0, 0⟩ x = 0 := by
  have h0 : ∀ y : ℚ, 0 ≤ y → min 0 y = 0 := fun y hy => min_eq_left hy
  unfold deltaAggAt
  dsimp only
  rw [h0 (fiveTerm0 p.d_lo p.d_hi x) (by unfold fiveTerm0; exact trapmf_nonneg _ _ _ _ _),
    h0 (fiveTerm1 p.d_lo p.d_hi x) (by unfold fiveTerm1; exact trimf_nonneg _ _ _ _),
    h0 (fiveTerm2 p.d_lo p.d_hi x) (by unfold fiveTerm2; exact trimf_nonneg _ _ _ _),
    h0 (fiveTerm3 p.d_lo p.d_hi x) (by unfold fiveTerm3; exact trimf_nonneg _ _ _ _),
    h0 (fiveTerm4 p.d_lo p.d_hi x) (by unfold fiveTerm4; exact trapmf_nonneg _ _ _ _ _)]
  simp

theorem sumAcc_eq : ∀ (l : List ℚ) (acc : ℚ), sumAcc l acc = acc + l.sum
  | [], acc => by simp [sumAcc]
  | x :: l, acc => by
      unfold sumAcc
      dsimp only
      split_ifs with h
      · rw [sumAcc_eq l 0, List.sum_cons]
        linarith
      · rw [sumAcc_eq l (acc + x), List.sum_cons]
        ring

theorem deltaRaw_none_of_cuts_zero (p : DeltaParams) (indoor outdoor occ : ℚ)
    (h : deltaCuts p indoor outdoor occ = ⟨0, 0, 0, 0, 0⟩) :
    deltaRaw p indoor outdoor occ = none := by
  unfold deltaRaw centroid
  rw [if_pos]
  rw [sumAcc_eq, zero_add]
  apply List.sum_eq_zero
  intro y hy
  rw [List.map_map] at hy
  rcases List.mem_map.mp hy with ⟨x, _, hx⟩
  rw [← hx]
  show deltaAggAt p (deltaCuts p indoor outdoor occ) x = 0
  rw [h]
  exact deltaAggAt_cuts_zero p x

theorem occScore_bright_mid : occScore occP 6 1 = some (13/15) := by
  with_unfolding_all decide

theorem deltaNoFire_cold_bright :
    deltaNoFire occP deltaP 10 15 6 1 = true := by
  unfold deltaNoFire
  rw [occScore_bright_mid]
  dsimp only
  rw [deltaRaw_none_of_cuts_zero deltaP 10 15 (13/15)
    (by with_unfolding_all decide)]
  rfl

/-- C4: the delta stage's returned `delta_t` is always the raw
centroid clipped into the calibrated `[d_lo, d_hi]` universe; and
whenever the occupancy stage succeeds but no delta rule fires,
`single_step` substitutes the zero-change fallback — exactly `0`, with
`t_future = indoor_t`, whenever the calibrated delta universe contains
zero — logs the `[WARN]` message, and still returns normally rather
than raising. -/
theorem delta_clip_and_zero_fallback (po : OccParams) (pd : DeltaParams)
    (indoor_t outdoor_t co2 lighting : ℚ)
    (hlo : pd.d_lo ≤ 0) (hhi : 0 ≤ pd.d_hi) :
    (∀ r, single_step po pd indoor_t outdoor_t co2 lighting = some r →
        pd.d_lo ≤ r.2.1 ∧ r.2.1 ≤ pd.d_hi) ∧
    (deltaNoFire po pd indoor_t outdoor_t co2 lighting = true →
      (single_stepW po pd indoor_t outdoor_t co2 lighting).2 = true ∧
      ((single_step po pd indoor_t outdoor_t co2 lighting).map
          fun r => r.2.1) = some 0 ∧
      ((single_step po pd indoor_t outdoor_t co2 lighting).map
          fun r => r.2.2.1) = some indoor_t) := by
  have hd : pd.d_lo ≤ pd.d_hi := le_trans hlo hhi
  have h0 : clipQ 0 pd.d_lo pd.d_hi = 0 := clipQ_zero hlo hhi
  unfold single_step single_stepW deltaNoFire
  cases hocc : occScore po co2 lighting with
  | none =>
      constructor
      · intro r hr
        simp at hr
      · intro hf
        simp at hf
  | some occ =>
      dsimp only
      cases hdr : deltaRaw pd indoor_t outdoor_t occ with
      | some raw =>
          dsimp only
          constructor
          · intro r hr
            rw [Option.some.injEq] at hr
            rw [← hr]
            exact clipQ_le hd
          · intro hf
            simp at hf
      | none =>
          dsimp only
          constructor
          · intro r hr
            rw [Option.some.injEq] at hr
            rw [← hr]
            simp only [h0]
            exact ⟨hlo, hhi⟩
          · intro hf
            simp [h0]


/-- Witness for C4 at the representative calibration: for the query
`(indoor, outdoor, co2, lighting) = (10, 15, 6, 1)` the occupancy
stage fires (bright ∧ medium CO2) but no delta rule covers
(very cold indoor, cold-to-normal outdoor), so the fallback runs:
warning logged, `delta_t = 0`, `t_future = 10`. -/
theorem delta_clip_and_zero_fallback_witness :
    (deltaP.d_lo ≤ 0 ∧ (0 : ℚ) ≤ deltaP.d_hi ∧
      deltaNoFire occP deltaP 10 15 6 1 = true) ∧
    ((single_stepW occP deltaP 10 15 6 1).2 = true ∧
      ((single_step occP deltaP 10 15 6 1).map
          fun r => r.2.1) = some 0 ∧
      ((single_step occP deltaP 10 15 6 1).map
          fun r => r.2.2.1) = some 10) :=
  ⟨⟨by with_unfolding_all decide, by with_unfolding_all decide,
      deltaNoFire_cold_bright⟩,
    (delta_clip_and_zero_fallback occP deltaP 10 15 6 1
        (by with_unfolding_all decide) (by with_unfolding_all decide)).2
      deltaNoFire_cold_bright⟩

theorem deltaUniverses_congr (d1 d2 : List CleanRow) (occv : List ℚ)
    (h1 : trainPart d1 = trainPart d2) (h2 : d1.length = d2.length) :
    deltaUniverses d1 occv = deltaUniverses d2 occv := by
  unfold deltaUniverses
  rw [h1, h2]

/-- C2 fails on the code: `build_occupancy_system` is invoked on the
*whole* cleaned dataset (line 240), before any train/evaluation split,
so its `pct_range` calls read the evaluation rows.  Two five-row
tables that agree on the entire training partition (the first 80 % of
rows under the `shuffle=False` split) but differ in one evaluation
row's CO2 value produce different occupancy-model universes.  The
delta-model universe computation itself, by contrast, reads only the
training prefix (equal tables-with-occupancy-column prefixes give
equal bounds). -/
theorem occ_universe_evaluation_leak :
    trainPart dfA = trainPart dfB ∧
    occUniverses dfA ≠ occUniverses dfB ∧
    deltaUniverses dfA occC = deltaUniverses dfB occC := by
  refine ⟨by with_unfolding_all decide, ?_,
    deltaUniverses_congr dfA dfB occC (by with_unfolding_all decide)
      (by with_unfolding_all decide)⟩
  have hA1 : percentile (dfA.map fun r => r.co2) 1 = 101/25 := by
    with_unfolding_all decide
  have hA99 : percentile (dfA.map fun r => r.co2) 99 = 199/25 := by
    with_unfolding_all decide
  have hB1 : percentile (dfB.map fun r => r.co2) 1 = 101/25 := by
    with_unfolding_all decide
  have hB99 : percentile (dfB.map fun r => r.co2) 99 = 439/25 := by
    with_unfolding_all decide
  intro h
  have h1 : (occUniverses dfA).1.2 = (occUniverses dfB).1.2 := by rw [h]
  unfold occUniverses pct_range at h1
  dsimp only at h1
  rw [hA1, hA99, hB1, hB99] at h1
  norm_num at h1

theorem trimf_at_peak (a b c : ℚ) : trimf a b c b = 1 := by
  unfold trimf; rw [if_pos rfl]

theorem trimf_left_out (a b c x : ℚ) (h1 : x ≤ a) (h2 : x < b) :
    trimf a b c x = 0 := by
  unfold trimf
  rw [if_neg (ne_of_lt h2),
    if_neg (fun hx => absurd hx.1 (not_lt.mpr h1)),
    if_neg (fun hx => absurd hx.1 (not_lt.mpr (le_of_lt h2)))]

theorem trimf_right_out (a b c x : ℚ) (h1 : c ≤ x) (h2 : b < x) :
    trimf a b c x = 0 := by
  unfold trimf
  rw [if_neg (ne_of_gt h2),
    if_neg (fun hx => absurd hx.2 (not_lt.mpr (le_of_lt h2))),
    if_neg (fun hx => absurd hx.2 (not_lt.mpr h1))]

theorem trapmf_degL_peak (lo d : ℚ) (h : lo ≤ d) : trapmf lo lo lo d lo = 1 := by
  unfold trapmf
  rw [if_neg (lt_irrefl lo), if_neg (not_lt.mpr h), if_pos (le_refl lo)]
  exact trimf_at_peak lo lo lo

theorem trapmf_degL_foot (lo d : ℚ) (h : lo < d) : trapmf lo lo lo d d = 0 := by
  unfold trapmf
  rw [if_neg (not_lt.mpr (le_of_lt h)), if_neg (lt_irrefl d),
    if_neg (not_le.mpr h), if_pos (le_of_lt h)]
  exact trimf_right_out lo lo d d (le_refl d) h

theorem trapmf_degR_peak (a e : ℚ) (h : a ≤ e) : trapmf a e e e e = 1 := by
  unfold trapmf
  rw [if_neg (not_lt.mpr h), if_neg (lt_irrefl e), if_pos (le_refl e)]
  exact trimf_at_peak a e e

theorem trapmf_degR_foot (a e : ℚ) (h : a < e) : trapmf a e e e a = 0 := by
  unfold trapmf
  rw [if_neg (lt_irrefl a), if_neg (not_lt.mpr (le_of_lt h)), if_pos (le_of_lt h)]
  exact trimf_left_out a e e a (le_refl a) h

/-- C6 counterexample: on the universe `[0, 4]` the five evenly
spaced points are 0, 1, 2, 3, 4, and the claim puts the first interior
triangle's peak (membership 1) at its evenly spaced point 1; the
code's term has membership 2/3 there and peaks at 1/2 instead.  On
`[0, 2]` the 3-term builder's middle triangle likewise has membership
2/3 at its evenly spaced point 1, peaking at 1/2. -/
theorem mf_builders_counterexample :
    fiveTerm1 0 4 1 = 2/3 ∧ fiveTerm1 0 4 (1/2) = 1 ∧
    threeTerm1 0 2 1 = 2/3 ∧ threeTerm1 0 2 (1/2) = 1 ∧
    ((2 : ℚ)/3) ≠ 1 := by
  with_unfolding_all decide

/-- C6 (amended): given universe bounds `(lo, hi)`, the builders are
deterministic and produce: first/last terms that are *degenerate*
trapezoids whose plateau is the single universe endpoint (membership 1
exactly at the edge, falling to 0 at the adjacent evenly spaced
point), and interior triangles whose feet are at the adjacent evenly
spaced points but whose peak sits at the *midpoint between the
previous evenly spaced point and the term's own point*
(`(p(i-1) + p(i)) / 2`), not at the term's evenly spaced point. -/
theorem mf_builders_shape (lo hi : ℚ) (h : lo < hi) :
    (fiveTerm0 lo hi lo = 1 ∧ fiveTerm0 lo hi (lin5 lo hi 1) = 0) ∧
    (fiveTerm1 lo hi (lin5 lo hi 0) = 0 ∧
      fiveTerm1 lo hi ((lin5 lo hi 0 + lin5 lo hi 1) / 2) = 1 ∧
      fiveTerm1 lo hi (lin5 lo hi 2) = 0) ∧
    (fiveTerm2 lo hi (lin5 lo hi 1) = 0 ∧
      fiveTerm2 lo hi ((lin5 lo hi 1 + lin5 lo hi 2) / 2) = 1 ∧
      fiveTerm2 lo hi (lin5 lo hi 3) = 0) ∧
    (fiveTerm3 lo hi (lin5 lo hi 2) = 0 ∧
      fiveTerm3 lo hi ((lin5 lo hi 2 + lin5 lo hi 3) / 2) = 1 ∧
      fiveTerm3 lo hi (lin5 lo hi 4) = 0) ∧
    (fiveTerm4 lo hi (lin5 lo hi 3) = 0 ∧ fiveTerm4 lo hi hi = 1) ∧
    (threeTerm0 lo hi lo = 1 ∧ threeTerm0 lo hi (lin3 lo hi 1) = 0) ∧
    (threeTerm1 lo hi lo = 0 ∧
      threeTerm1 lo hi ((lin3 lo hi 0 + lin3 lo hi 1) / 2) = 1 ∧
      threeTerm1 lo hi hi = 0) ∧
    (threeTerm2 lo hi (lin3 lo hi 1) = 0 ∧ threeTerm2 lo hi hi = 1) := by
  have e0 : lin5 lo hi 0 = lo := by unfold lin5; norm_num
  have e4 : lin5 lo hi 4 = hi := by unfold lin5; push_cast; ring
  have e30 : lin3 lo hi 0 = lo := by unfold lin3; norm_num
  have e32 : lin3 lo hi 2 = hi := by unfold lin3; push_cast; ring
  have i1 : lo < lin5 lo hi 1 := by unfold lin5; push_cast; linarith
  have i2 : lin5 lo hi 1 < lin5 lo hi 2 := by unfold lin5; push_cast; linarith
  have i3 : lin5 lo hi 2 < lin5 lo hi 3 := by unfold lin5; push_cast; linarith
  have i4 : lin5 lo hi 3 < hi := by unfold lin5; push_cast; linarith
  have j1 : lo < lin3 lo hi 1 := by unfold lin3; push_cast; linarith
  have j2 : lin3 lo hi 1 < hi := by unfold lin3; push_cast; linarith
  unfold fiveTerm0 fiveTerm1 fiveTerm2 fiveTerm3 fiveTerm4
    threeTerm0 threeTerm1 threeTerm2
  rw [e0, e4, e30, e32]
  refine ⟨⟨?_, ?_⟩, ⟨?_, ?_, ?_⟩, ⟨?_, ?_, ?_⟩, ⟨?_, ?_, ?_⟩, ⟨?_, ?_⟩,
    ⟨?_, ?_⟩, ⟨?_, ?_, ?_⟩, ⟨?_, ?_⟩⟩
  · exact trapmf_degL_peak lo (lin5 lo hi 1) (le_of_lt i1)
  · exact trapmf_degL_foot lo (lin5 lo hi 1) i1
  · exact trimf_left_out _ _ _ _ (le_refl lo) (by linarith)
  · exact trimf_at_peak _ _ _
  · exact trimf_right_out _ _ _ _ (le_refl _) (by linarith)
  · exact trimf_left_out _ _ _ _ (le_refl _) (by linarith)
  · exact trimf_at_peak _ _ _
  · exact trimf_right_out _ _ _ _ (le_refl _) (by linarith)
  · exact trimf_left_out _ _ _ _ (le_refl _) (by linarith)
  · exact trimf_at_peak _ _ _
  · exact trimf_right_out _ _ _ _ (le_refl _) (by linarith)
  · exact trapmf_degR_foot (lin5 lo hi 3) hi i4
  · exact trapmf_degR_peak (lin5 lo hi 3) hi (le_of_lt i4)
  · exact trapmf_degL_peak lo (lin3 lo hi 1) (le_of_lt j1)
  · exact trapmf_degL_foot lo (lin3 lo hi 1) j1
  · exact trimf_left_out _ _ _ _ (le_refl lo) (by linarith)
  · exact trimf_at_peak _ _ _
  · exact trimf_right_out _ _ _ _ (le_refl _) (by linarith)
  · exact trapmf_degR_foot (lin3 lo hi 1) hi j2
  · exact trapmf_degR_peak (lin3 lo hi 1) hi (le_of_lt j2)


/-- Witness for the amended C6 on the universe bounds `(0, 4)`. -/
theorem mf_builders_shape_witness :
    ((0 : ℚ) < 4) ∧
    ((fiveTerm0 0 4 0 = 1 ∧ fiveTerm0 0 4 (lin5 0 4 1) = 0) ∧
      (fiveTerm1 0 4 (lin5 0 4 0) = 0 ∧
        fiveTerm1 0 4 ((lin5 0 4 0 + lin5 0 4 1) / 2) = 1 ∧
        fiveTerm1 0 4 (lin5 0 4 2) = 0) ∧
      (fiveTerm2 0 4 (lin5 0 4 1) = 0 ∧
        fiveTerm2 0 4 ((lin5 0 4 1 + lin5 0 4 2) / 2) = 1 ∧
        fiveTerm2 0 4 (lin5 0 4 3) = 0) ∧
      (fiveTerm3 0 4 (lin5 0 4 2) = 0 ∧
        fiveTerm3 0 4 ((lin5 0 4 2 + lin5 0 4 3) / 2) = 1 ∧
        fiveTerm3 0 4 (lin5 0 4 4) = 0) ∧
      (fiveTerm4 0 4 (lin5 0 4 3) = 0 ∧ fiveTerm4 0 4 4 = 1) ∧
      (threeTerm0 0 4 0 = 1 ∧ threeTerm0 0 4 (lin3 0 4 1) = 0) ∧
      (threeTerm1 0 4 0 = 0 ∧
        threeTerm1 0 4 ((lin3 0 4 0 + lin3 0 4 1) / 2) = 1 ∧
        threeTerm1 0 4 4 = 0) ∧
      (threeTerm2 0 4 (lin3 0 4 1) = 0 ∧ threeTerm2 0 4 4 = 1)) :=
  ⟨by norm_num, mf_builders_shape 0 4 (by norm_num)⟩

theorem clipIn_hi (lo hi : ℚ) (h : lo ≤ hi) : clipIn hi lo hi = hi := by
  unfold clipIn
  rw [if_neg (lt_irrefl hi), if_neg (not_lt.mpr h)]

theorem clipIn_lo (lo hi : ℚ) (h : lo ≤ hi) : clipIn lo lo hi = lo := by
  unfold clipIn
  rw [if_neg (not_lt.mpr h), if_neg (lt_irrefl lo)]

theorem occCuts_hi_bright (p : OccParams) (hc : p.co2_lo < p.co2_hi)
    (hl : p.light_lo < p.light_hi) :
    occCuts p p.co2_hi p.light_hi = ⟨0, 0, 1⟩ := by
  unfold occCuts
  dsimp only
  rw [clipIn_hi _ _ (le_of_lt hc), clipIn_hi _ _ (le_of_lt hl)]
  have c1 : co2Low p p.co2_hi = 0 := by
    unfold co2Low
    exact trimf_right_out _ _ _ _ (by linarith) (by linarith)
  have c2 : co2Medium p p.co2_hi = 0 := by
    unfold co2Medium
    exact trimf_right_out _ _ _ _ (le_refl _) (by linarith)
  have c3 : co2High p p.co2_hi = 1 := by
    unfold co2High; exact trimf_at_peak _ _ _
  have l1 : lightDark p p.light_hi = 0 := by
    unfold lightDark
    exact trimf_right_out _ _ _ _ (by linarith) (by linarith)
  have l2 : lightDim p p.light_hi = 0 := by
    unfold lightDim
    exact trimf_right_out _ _ _ _ (le_refl _) (by linarith)
  have l3 : lightBright p p.light_hi = 1 := by
    unfold lightBright; exact trimf_at_peak _ _ _
  rw [c1, c2, c3, l1, l2, l3]
  norm_num [OccCuts.mk.injEq, min_def, max_def]

theorem occCuts_lo_bright (p : OccParams) (hc : p.co2_lo < p.co2_hi)
    (hl : p.light_lo < p.light_hi) :
    occCuts p p.co2_lo p.light_hi = ⟨0, 1, 0⟩ := by
  unfold occCuts
  dsimp only
  rw [clipIn_lo _ _ (le_of_lt hc), clipIn_hi _ _ (le_of_lt hl)]
  have c1 : co2Low p p.co2_lo = 1 := by
    unfold co2Low; exact trimf_at_peak _ _ _
  have c2 : co2Medium p p.co2_lo = 0 := by
    unfold co2Medium
    exact trimf_left_out _ _ _ _ (le_refl _) (by linarith)
  have c3 : co2High p p.co2_lo = 0 := by
    unfold co2High
    exact trimf_left_out _ _ _ _ (by linarith) (by linarith)
  have l1 : lightDark p p.light_hi = 0 := by
    unfold lightDark
    exact trimf_right_out _ _ _ _ (by linarith) (by linarith)
  have l2 : lightDim p p.light_hi = 0 := by
    unfold lightDim
    exact trimf_right_out _ _ _ _ (le_refl _) (by linarith)
  have l3 : lightBright p p.light_hi = 1 := by
    unfold lightBright; exact trimf_at_peak _ _ _
  rw [c1, c2, c3, l1, l2, l3]
  norm_num [OccCuts.mk.injEq, min_def, max_def]

/-- C8 counterexample: with lighting fixed at the brightest calibrated
value (1), raising CO2 from the calibrated universe midpoint (6) to
the three-quarter point (8) — both inside the calibrated range
`[2, 10]` — strictly *decreases* the occupancy score: 13/15 drops to
38/45. -/
theorem occ_monotone_counterexample :
    occScore occP 6 1 = some (13/15) ∧
    occScore occP 8 1 = some (38/45) ∧
    ((38 : ℚ)/45) < 13/15 ∧
    occP.co2_lo ≤ 6 ∧ (6 : ℚ) < 8 ∧ (8 : ℚ) ≤ occP.co2_hi ∧
    occP.light_hi = 1 :=
  ⟨occScore_bright_mid, by with_unfolding_all decide, by norm_num,
    by with_unfolding_all decide, by norm_num, by with_unfolding_all decide,
    by with_unfolding_all decide⟩

/-- C8 (amended): holding lighting at its brightest calibrated value,
the occupancy score at the highest calibrated CO2 value (13/15) is
strictly greater than at the lowest (1/2) — the endpoint comparison of
the claim holds — but the response is not pointwise non-decreasing in
between (see the counterexample: it dips between the universe midpoint
and the maximum). -/
theorem occ_score_endpoints (p : OccParams) (hc : p.co2_lo < p.co2_hi)
    (hl : p.light_lo < p.light_hi) :
    occScore p p.co2_lo p.light_hi = some (1/2) ∧
    occScore p p.co2_hi p.light_hi = some (13/15) ∧
    ((1 : ℚ)/2) < 13/15 := by
  refine ⟨?_, ?_, by norm_num⟩
  · unfold occScore
    rw [occCuts_lo_bright p hc hl]
    with_unfolding_all decide
  · unfold occScore
    rw [occCuts_hi_bright p hc hl]
    with_unfolding_all decide


/-- Witness for the amended C8 at the representative calibration. -/
theorem occ_score_endpoints_witness :
    (occP.co2_lo < occP.co2_hi ∧ occP.light_lo < occP.light_hi) ∧
    (occScore occP occP.co2_lo occP.light_hi = some (1/2) ∧
      occScore occP occP.co2_hi occP.light_hi = some (13/15) ∧
      ((1 : ℚ)/2) < 13/15) :=
  ⟨⟨by with_unfolding_all decide, by with_unfolding_all decide⟩,
    occ_score_endpoints occP (by with_unfolding_all decide)
      (by with_unfolding_all decide)⟩

/-- C10: `single_step` is deterministic and stateless across queries.
Each call allocates a fresh simulation object for each of the two
systems built at startup, so from any fresh-sound process state the
stateful call returns exactly the pure function of its inputs — hence
any two calls with equal input quadruples return equal outputs and no
call's result depends on which queries were executed before it — and
the resulting state is again fresh-sound, so this holds along any
query sequence. -/
theorem single_step_stateless (po : OccParams) (pd : DeltaParams)
    (s : SimCaches) (indoor_t outdoor_t co2 lighting : ℚ)
    (hs : FreshOK s) :
    (single_stepSt po pd s indoor_t outdoor_t co2 lighting).2
      = single_step po pd indoor_t outdoor_t co2 lighting ∧
    FreshOK (single_stepSt po pd s indoor_t outdoor_t co2 lighting).1 := by
  have h1 : s.occ s.nextId = [] := (hs s.nextId (le_refl _)).1
  have h2 : s.delta (s.nextId + 1) = [] := (hs (s.nextId + 1) (Nat.le_succ _)).2
  unfold single_stepSt single_step single_stepW computeOcc computeDelta
  dsimp only
  rw [h1]
  dsimp only [List.find?]
  cases hocc : occScore po co2 lighting with
  | none =>
      refine ⟨rfl, ?_⟩
      intro j hj
      dsimp only at hj ⊢
      refine ⟨?_, (hs j (by omega)).2⟩
      rw [if_neg (by omega)]
      exact (hs j (by omega)).1
  | some occ =>
      dsimp only
      rw [h2]
      dsimp only [List.find?]
      cases hdr : deltaRaw pd indoor_t outdoor_t occ with
      | some raw =>
          refine ⟨rfl, ?_⟩
          intro j hj
          dsimp only at hj ⊢
          refine ⟨?_, ?_⟩
          · rw [if_neg (by omega)]
            exact (hs j (by omega)).1
          · rw [if_neg (by omega)]
            exact (hs j (by omega)).2
      | none =>
          refine ⟨rfl, ?_⟩
          intro j hj
          dsimp only at hj ⊢
          refine ⟨?_, ?_⟩
          · rw [if_neg (by omega)]
            exact (hs j (by omega)).1
          · rw [if_neg (by omega)]
            exact (hs j (by omega)).2


/-- Witness for C10: from the startup state, the stateful call returns
exactly the pure value of its inputs. -/
theorem single_step_stateless_witness :
    FreshOK simInit ∧
    (single_stepSt occP deltaP simInit 21 12 6 1).2
      = single_step occP deltaP 21 12 6 1 :=
  ⟨fun j hj => ⟨rfl, rfl⟩,
    (single_step_stateless occP deltaP simInit 21 12 6 1
      (fun j hj => ⟨rfl, rfl⟩)).1⟩

end FuzzyTemp
